import Mathlib

/-!
Shallow embedding of the `newsapi` service (`src/main.rs`): a hand-rolled
HTTP request router over a single `articles` table, plus an IMDb scrape
endpoint and a delete-by-source endpoint.

External effects are modelled explicitly:
* the Postgres database is a `DB` value (list of rows plus the next
  SERIAL id), and each SQL statement of the source becomes a pure
  function on `DB`;
* the success of `Client::connect` and of the `execute`/`query` calls
  whose errors the source `unwrap`s is an explicit boolean oracle
  (an `unwrap` on a failed call panics, which we model as `none`:
  no response is produced);
* the outbound HTTP fetch plus CSS selection in the scrape handler is
  external I/O; its outcome is the list of extracted title strings;
* `serde_json` text encoding/decoding of the derived `Article`
  instances is modelled by a small JSON value type together with an
  executable text parser and printer for the fragment this service
  exchanges (objects, arrays, strings with escapes, integers, booleans,
  null; floating-point numbers, which the service never produces and
  whose appearance in a body would make `i32` deserialization fail
  anyway, are rejected by the parser).

Everything the Rust code itself computes — the prefix routing, the
string surgery of `get_id` and `get_article_request_body`, the handler
control flow, the scrape insertion loop — is translated directly.
All string functions are defined structurally over `List Char` so that
they evaluate inside the kernel.
-/

/-- Unicode white-space test matching Rust `char::is_whitespace`
(the Unicode `White_Space` property). -/
def rustIsWs (c : Char) : Bool :=
  c == '\t' || c == '\n' || c == '\x0b' || c == '\x0c' || c == '\r' || c == ' ' ||
  c == '\u0085' || c.toNat == 0xa0 || c.toNat == 0x1680 ||
  (0x2000 ≤ c.toNat && c.toNat ≤ 0x200a) || c.toNat == 0x2028 || c.toNat == 0x2029 ||
  c.toNat == 0x202f || c.toNat == 0x205f || c.toNat == 0x3000

/-- Index of the first occurrence of `sep` as a contiguous sublist of `cs`. -/
def findIdxSub (sep cs : List Char) : Option Nat :=
  (List.range (cs.length + 1)).find? (fun i => sep.isPrefixOf (cs.drop i))

/-- Whether `sep` occurs as a contiguous sublist of `cs`. -/
def containsSeq (sep cs : List Char) : Bool :=
  (findIdxSub sep cs).isSome

/-- Fuel-driven splitter on a separator sequence.  With non-empty `sep` and
fuel at least `cs.length` this computes Rust `str::split` (leftmost,
non-overlapping occurrences); every found occurrence consumes at least one
character, so the fuel never runs out before the input does. -/
def splitSeqFuel (sep : List Char) : Nat → List Char → List (List Char)
  | 0, cs => [cs]
  | fuel + 1, cs =>
    match findIdxSub sep cs with
    | none => [cs]
    | some i => cs.take i :: splitSeqFuel sep fuel (cs.drop (i + sep.length))

/-- Rust `str::split` on a separator string, as a function on char lists. -/
def rustSplit (sep cs : List Char) : List (List Char) :=
  splitSeqFuel sep cs.length cs

/-- One step of Rust `str::split_whitespace`: accumulates the current word
(reversed in `acc`) and emits maximal runs of non-white-space characters. -/
def swAux : List Char → List Char → List (List Char)
  | [], acc => if acc.isEmpty then [] else [acc.reverse]
  | c :: rest, acc =>
    if rustIsWs c then
      if acc.isEmpty then swAux rest [] else acc.reverse :: swAux rest []
    else
      swAux rest (c :: acc)

/-- Rust `request.split_whitespace().next().unwrap_or_default()`:
the first white-space-separated word, or the empty word. -/
def splitWsFirst (cs : List Char) : List Char :=
  (swAux cs []).headD []

/-- Status line constant `OK_RESPONSE` from the source. -/
def OK_RESPONSE : String := "HTTP/1.1 200 OK\r\nContent-Type: application/json\r\n\r\n"

/-- Status line constant `NOT_FOUND` from the source. -/
def NOT_FOUND : String := "HTTP/1.1 404 NOT FOUND\r\n\r\n"

/-- Status line constant `INTERNAL_SERVER_ERROR` from the source. -/
def INTERNAL_SERVER_ERROR : String := "HTTP/1.1 500 INTERNAL SERVER ERROR\r\n\r\n"

/-- Numeric value of a list of ASCII digits. -/
def digitsToNat (ds : List Char) : Nat :=
  ds.foldl (fun a c => a * 10 + (c.toNat - 48)) 0

/-- Rust `str::parse::<i32>()`: an optional sign, then one or more ASCII
digits, and the value must fit in `i32`. -/
def parseI32 (s : String) : Option Int :=
  let signed : Int × List Char :=
    match s.toList with
    | '+' :: rest => (1, rest)
    | '-' :: rest => (-1, rest)
    | cs => (1, cs)
  if signed.2.isEmpty then none
  else if signed.2.all Char.isDigit then
    let v : Int := signed.1 * (digitsToNat signed.2 : Int)
    if -2147483648 ≤ v ∧ v ≤ 2147483647 then some v else none
  else none

/-- Separator `"/"` used by `get_id`. -/
def slashSep : List Char := ['/']

/-- The blank-line separator `"\r\n\r\n"` used by `get_article_request_body`. -/
def crlf2 : List Char := ['\r', '\n', '\r', '\n']

/-- Source `get_id`:
`request.split("/").nth(2).unwrap_or_default().split_whitespace().next().unwrap_or_default()`. -/
def get_id (request : String) : String :=
  (splitWsFirst (((rustSplit slashSep request.toList).get? 2).getD [])).asString

/-- Body extraction inside source `get_article_request_body`:
`request.split("\r\n\r\n").last().unwrap_or_default()`. -/
def extractBody (request : String) : String :=
  (((rustSplit crlf2 request.toList).getLast?).getD []).asString

/-- JSON values, modelling `serde_json::Value` for the fragment this
service exchanges (numbers restricted to integers). -/
inductive JsonVal where
  | null
  | bool (b : Bool)
  | num (n : Int)
  | str (s : String)
  | arr (xs : List JsonVal)
  | obj (fields : List (String × JsonVal))

/-- JSON inter-token white space accepted by `serde_json`. -/
def jsonWsChar (c : Char) : Bool :=
  c == ' ' || c == '\t' || c == '\n' || c == '\r'

/-- Opening brace character, by code point. -/
def lbrace : Char := Char.ofNat 123

/-- Closing brace character, by code point. -/
def rbrace : Char := Char.ofNat 125

/-- Value of a hexadecimal digit. -/
def hexVal? (c : Char) : Option Nat :=
  if 48 ≤ c.toNat ∧ c.toNat ≤ 57 then some (c.toNat - 48)
  else if 97 ≤ c.toNat ∧ c.toNat ≤ 102 then some (c.toNat - 87)
  else if 65 ≤ c.toNat ∧ c.toNat ≤ 70 then some (c.toNat - 55)
  else none

/-- Parse exactly four hex digits. -/
def parse4Hex : List Char → Option (Nat × List Char)
  | a :: b :: c :: d :: rest =>
    match hexVal? a, hexVal? b, hexVal? c, hexVal? d with
    | some x, some y, some z, some w => some (((x * 16 + y) * 16 + z) * 16 + w, rest)
    | _, _, _, _ => none
  | _ => none

/-- Decode one escape sequence (the characters after a backslash inside a
JSON string), including `\uXXXX` with surrogate pairs, as `serde_json` does. -/
def decodeEscape : List Char → Option (Char × List Char)
  | [] => none
  | e :: rest =>
    if e == '"' then some ('"', rest)
    else if e == '\\' then some ('\\', rest)
    else if e == '/' then some ('/', rest)
    else if e == 'b' then some ('\x08', rest)
    else if e == 'f' then some ('\x0c', rest)
    else if e == 'n' then some ('\n', rest)
    else if e == 'r' then some ('\r', rest)
    else if e == 't' then some ('\t', rest)
    else if e == 'u' then
      match parse4Hex rest with
      | none => none
      | some (n, rest2) =>
        if 0xd800 ≤ n ∧ n ≤ 0xdbff then
          match rest2 with
          | '\\' :: 'u' :: rest3 =>
            match parse4Hex rest3 with
            | none => none
            | some (m, rest4) =>
              if 0xdc00 ≤ m ∧ m ≤ 0xdfff then
                some (Char.ofNat (0x10000 + (n - 0xd800) * 0x400 + (m - 0xdc00)), rest4)
              else none
          | _ => none
        else if 0xdc00 ≤ n ∧ n ≤ 0xdfff then none
        else some (Char.ofNat n, rest2)
    else none

/-- Parse the characters of a JSON string after the opening quote, returning
the content and the remainder after the closing quote.  Unescaped control
characters are rejected, as `serde_json` rejects them. -/
def parseStrChars : Nat → List Char → Option (List Char × List Char)
  | 0, _ => none
  | fuel + 1, cs =>
    match cs with
    | [] => none
    | c :: rest =>
      if c == '"' then some ([], rest)
      else if c == '\\' then
        match decodeEscape rest with
        | none => none
        | some (d, rest2) =>
          match parseStrChars fuel rest2 with
          | none => none
          | some (out, rem) => some (d :: out, rem)
      else if c.toNat < 32 then none
      else
        match parseStrChars fuel rest with
        | none => none
        | some (out, rem) => some (c :: out, rem)

/-- Parse a JSON integer (optional minus sign, digits, no leading zero);
a fraction or exponent marks a float, which this model rejects. -/
def parseNum (cs : List Char) : Option (Int × List Char) :=
  let neg : Bool := cs.headD 'x' == '-'
  let ds0 := if neg then cs.tail else cs
  let digits := ds0.takeWhile Char.isDigit
  let rest := ds0.dropWhile Char.isDigit
  if digits.isEmpty then none
  else if 1 < digits.length ∧ digits.headD '0' = '0' then none
  else if rest.headD ' ' == '.' || rest.headD ' ' == 'e' || rest.headD ' ' == 'E' then none
  else some ((if neg then (-1 : Int) else 1) * (digitsToNat digits : Int), rest)

mutual

/-- Parse one JSON value (fuel-driven recursive descent). -/
def parseVal : Nat → List Char → Option (JsonVal × List Char)
  | 0, _ => none
  | fuel + 1, cs0 =>
    let cs := List.dropWhile jsonWsChar cs0
    match cs with
    | [] => none
    | c :: rest =>
      if c == 'n' then
        if rest.take 3 = ['u', 'l', 'l'] then some (.null, rest.drop 3) else none
      else if c == 't' then
        if rest.take 3 = ['r', 'u', 'e'] then some (.bool true, rest.drop 3) else none
      else if c == 'f' then
        if rest.take 4 = ['a', 'l', 's', 'e'] then some (.bool false, rest.drop 4) else none
      else if c == '"' then
        match parseStrChars (rest.length + 1) rest with
        | some (out, rem) => some (.str out.asString, rem)
        | none => none
      else if c == '[' then
        parseArrTail fuel rest
      else if c == lbrace then
        parseObjTail fuel rest
      else if c == '-' || c.isDigit then
        match parseNum cs with
        | some (n, rem) => some (.num n, rem)
        | none => none
      else none

/-- Parse the elements of a JSON array after the opening bracket. -/
def parseArrTail : Nat → List Char → Option (JsonVal × List Char)
  | 0, _ => none
  | fuel + 1, cs0 =>
    let cs := List.dropWhile jsonWsChar cs0
    match cs with
    | ']' :: rest => some (.arr [], rest)
    | _ =>
      match parseVal fuel cs with
      | none => none
      | some (v, rem) =>
        match parseArrRest fuel rem with
        | none => none
        | some (vs, rem2) => some (.arr (v :: vs), rem2)

/-- Parse `, value` repetitions up to the closing bracket of an array. -/
def parseArrRest : Nat → List Char → Option (List JsonVal × List Char)
  | 0, _ => none
  | fuel + 1, cs0 =>
    let cs := List.dropWhile jsonWsChar cs0
    match cs with
    | ']' :: rest => some ([], rest)
    | ',' :: rest =>
      match parseVal fuel rest with
      | none => none
      | some (v, rem) =>
        match parseArrRest fuel rem with
        | none => none
        | some (vs, rem2) => some (v :: vs, rem2)
    | _ => none

/-- Parse one `"key": value` member of a JSON object. -/
def parseMember : Nat → List Char → Option ((String × JsonVal) × List Char)
  | 0, _ => none
  | fuel + 1, cs0 =>
    let cs := List.dropWhile jsonWsChar cs0
    match cs with
    | '"' :: rest =>
      match parseStrChars (rest.length + 1) rest with
      | none => none
      | some (key, rem) =>
        match List.dropWhile jsonWsChar rem with
        | ':' :: rem2 =>
          match parseVal fuel rem2 with
          | none => none
          | some (v, rem3) => some ((key.asString, v), rem3)
        | _ => none
    | _ => none

/-- Parse the members of a JSON object after the opening brace. -/
def parseObjTail : Nat → List Char → Option (JsonVal × List Char)
  | 0, _ => none
  | fuel + 1, cs0 =>
    let cs := List.dropWhile jsonWsChar cs0
    match cs with
    | [] => none
    | c :: rest =>
      if c == rbrace then some (.obj [], rest)
      else
        match parseMember fuel cs with
        | none => none
        | some (m, rem) =>
          match parseObjRest fuel rem with
          | none => none
          | some (ms, rem2) => some (.obj (m :: ms), rem2)

/-- Parse `, "key": value` repetitions up to the closing brace of an object. -/
def parseObjRest : Nat → List Char → Option (List (String × JsonVal) × List Char)
  | 0, _ => none
  | fuel + 1, cs0 =>
    let cs := List.dropWhile jsonWsChar cs0
    match cs with
    | [] => none
    | c :: rest =>
      if c == rbrace then some ([], rest)
      else if c == ',' then
        match parseMember fuel rest with
        | none => none
        | some (m, rem) =>
          match parseObjRest fuel rem with
          | none => none
          | some (ms, rem2) => some (m :: ms, rem2)
      else none

end

/-- Parse a complete JSON document, as `serde_json::from_str` does: one value
with only white space around it.  The fuel bound exceeds any possible
recursion depth, since every descent consumes at least one character. -/
def parseJson (s : String) : Option JsonVal :=
  let cs := s.toList
  match parseVal (2 * cs.length + 2) cs with
  | none => none
  | some (v, rem) => if (List.dropWhile jsonWsChar rem).isEmpty then some v else none

/-- The `Article` record of the source (`id` is `Option<i32>`). -/
structure Article where
  id : Option Int
  title : String
  content : String
  source : String
deriving DecidableEq, Repr

/-- Deserializing an `Option<i32>` field: `null` is `None`, an integer in
`i32` range is `Some`, anything else is an error. -/
def decodeOptI32 : JsonVal → Option (Option Int)
  | .null => some none
  | .num n => if -2147483648 ≤ n ∧ n ≤ 2147483647 then some (some n) else none
  | _ => none

/-- Deserializing a `String` field. -/
def decodeStrField : JsonVal → Option String
  | .str s => some s
  | _ => none

/-- Per-field slots accumulated by the derived `Deserialize` visitor for
`Article`: each slot is `some` once its field has been seen. -/
structure DecSlots where
  idS : Option (Option Int)
  tS : Option String
  cS : Option String
  sS : Option String

/-- One step of the derived `Deserialize` field loop: a known key fills its
slot (a duplicate or a wrong type is an error), an unknown key is skipped,
which is serde's default. -/
def decodeStep (st : DecSlots) (kv : String × JsonVal) : Option DecSlots :=
  if kv.1 == "id" then
    match st.idS, decodeOptI32 kv.2 with
    | none, some x => some ⟨some x, st.tS, st.cS, st.sS⟩
    | _, _ => none
  else if kv.1 == "title" then
    match st.tS, decodeStrField kv.2 with
    | none, some x => some ⟨st.idS, some x, st.cS, st.sS⟩
    | _, _ => none
  else if kv.1 == "content" then
    match st.cS, decodeStrField kv.2 with
    | none, some x => some ⟨st.idS, st.tS, some x, st.sS⟩
    | _, _ => none
  else if kv.1 == "source" then
    match st.sS, decodeStrField kv.2 with
    | none, some x => some ⟨st.idS, st.tS, st.cS, some x⟩
    | _, _ => none
  else some st

/-- Final assembly of the derived `Deserialize`: the three string fields are
required, `id` defaults to `None` when absent. -/
def finishSlots (st : DecSlots) : Option Article :=
  match st.tS, st.cS, st.sS with
  | some t, some c, some s => some ⟨st.idS.getD none, t, c, s⟩
  | _, _, _ => none

/-- Field loop of the derived `Deserialize` for `Article`: fields may come in
any order, duplicates are an error, unknown keys are skipped. -/
def decodeFields (fields : List (String × JsonVal)) (st : DecSlots) : Option Article :=
  match fields with
  | [] => finishSlots st
  | kv :: rest =>
    match decodeStep st kv with
    | none => none
    | some st2 => decodeFields rest st2

/-- The derived `Deserialize` impl for `Article`, on JSON values. -/
def decodeArticle : JsonVal → Option Article
  | .obj fields => decodeFields fields ⟨none, none, none, none⟩
  | _ => none

/-- The derived `Serialize` impl for `Article`, on JSON values: the four
fields in declaration order, `None` serialized as `null`. -/
def encodeArticle (a : Article) : JsonVal :=
  .obj [("id", match a.id with | none => .null | some n => .num n),
        ("title", .str a.title), ("content", .str a.content),
        ("source", .str a.source)]

/-- Decimal digits of a natural number, most significant first (fuel-driven;
the fuel `n + 1` always suffices since the number shrinks tenfold each step). -/
def natDecAux : Nat → Nat → List Char → List Char
  | 0, _, acc => acc
  | fuel + 1, n, acc =>
    if n < 10 then Char.ofNat (48 + n) :: acc
    else natDecAux fuel (n / 10) (Char.ofNat (48 + n % 10) :: acc)

/-- Decimal digits of a natural number. -/
def natDec (n : Nat) : List Char := natDecAux (n + 1) n []

/-- Decimal rendering of an integer, as `serde_json` (via `itoa`) emits it. -/
def intDec (n : Int) : List Char :=
  if n < 0 then '-' :: natDec n.natAbs else natDec n.natAbs

/-- Lowercase hexadecimal digit. -/
def hexDigitChar (n : Nat) : Char :=
  if n < 10 then Char.ofNat (48 + n) else Char.ofNat (87 + n)

/-- JSON string escaping as `serde_json::to_string` performs it. -/
def escapeChar (c : Char) : List Char :=
  if c == '"' then ['\\', '"']
  else if c == '\\' then ['\\', '\\']
  else if c == '\x08' then ['\\', 'b']
  else if c == '\t' then ['\\', 't']
  else if c == '\n' then ['\\', 'n']
  else if c == '\x0c' then ['\\', 'f']
  else if c == '\r' then ['\\', 'r']
  else if c.toNat < 32 then
    ['\\', 'u', '0', '0', hexDigitChar (c.toNat / 16), hexDigitChar (c.toNat % 16)]
  else [c]

/-- A JSON string literal with quotes and escapes. -/
def escapeString (s : String) : String :=
  "\"" ++ ((s.toList.map escapeChar).flatten).asString ++ "\""

mutual

/-- Compact JSON printing as `serde_json::to_string` performs it. -/
def printJson : JsonVal → String
  | .null => "null"
  | .bool true => "true"
  | .bool false => "false"
  | .num n => (intDec n).asString
  | .str s => escapeString s
  | .arr xs => "[" ++ printArrElems xs ++ "]"
  | .obj fs => "\x7b" ++ printObjMembers fs ++ "\x7d"

/-- Comma-separated array elements. -/
def printArrElems : List JsonVal → String
  | [] => ""
  | [x] => printJson x
  | x :: y :: xs => printJson x ++ "," ++ printArrElems (y :: xs)

/-- Comma-separated object members. -/
def printObjMembers : List (String × JsonVal) → String
  | [] => ""
  | [(k, v)] => escapeString k ++ ":" ++ printJson v
  | (k, v) :: m :: ms => escapeString k ++ ":" ++ printJson v ++ "," ++ printObjMembers (m :: ms)

end

/-- Source `get_article_request_body`: extract the body text and run the
`serde_json` deserialization of `Article` on it. -/
def get_article_request_body (request : String) : Option Article :=
  (parseJson (extractBody request)).bind decodeArticle

/-- One row of the `articles` table. -/
structure DBRow where
  id : Int
  title : String
  content : String
  source : String
deriving DecidableEq, Repr

/-- The `articles` table: rows plus the next value of the SERIAL id. -/
structure DB where
  rows : List DBRow
  nextId : Int
deriving DecidableEq, Repr

/-- `INSERT INTO articles (title, content, source) VALUES ($1, $2, $3)`:
the id is auto-assigned from the SERIAL counter. -/
def dbInsert (db : DB) (title content source : String) : DB :=
  ⟨db.rows ++ [⟨db.nextId, title, content, source⟩], db.nextId + 1⟩

/-- `client.query_one("SELECT * FROM articles WHERE id = $1", ...)`:
`Ok` exactly when exactly one row matches. -/
def dbQueryOne (db : DB) (i : Int) : Option DBRow :=
  match db.rows.filter (fun row => row.id == i) with
  | [row] => some row
  | _ => none

/-- `UPDATE articles SET title = $1, content = $2, source = $3 WHERE id = $4`. -/
def dbUpdate (db : DB) (i : Int) (title content source : String) : DB :=
  ⟨db.rows.map (fun row => if row.id == i then ⟨row.id, title, content, source⟩ else row),
   db.nextId⟩

/-- `DELETE FROM articles WHERE id = $1`, returning the rows-affected count. -/
def dbDeleteById (db : DB) (i : Int) : DB × Nat :=
  (⟨db.rows.filter (fun row => !(row.id == i)), db.nextId⟩,
   db.rows.countP (fun row => row.id == i))

/-- `DELETE FROM articles WHERE source = $1`, returning the rows-affected count. -/
def dbDeleteBySource (db : DB) (s : String) : DB × Nat :=
  (⟨db.rows.filter (fun row => !(row.source == s)), db.nextId⟩,
   db.rows.countP (fun row => row.source == s))

/-- Source `handle_post_request`.  `connOk` is the outcome of
`Client::connect`, `insertOk` the outcome of the `execute` call whose error
the source `unwrap`s: `none` models the panic (no response written). -/
def handle_post_request (request : String) (connOk insertOk : Bool) (db : DB) :
    Option ((String × String) × DB) :=
  match get_article_request_body request, connOk with
  | some article, true =>
    if insertOk then
      some ((OK_RESPONSE, "Article created"),
            dbInsert db article.title article.content article.source)
    else none
  | _, _ => some ((INTERNAL_SERVER_ERROR, "Error"), db)

/-- Source `handle_get_request`.  A `query_one` error (including "no row")
falls to the 404 arm. -/
def handle_get_request (request : String) (connOk : Bool) (db : DB) :
    (String × String) × DB :=
  match parseI32 (get_id request), connOk with
  | some i, true =>
    match dbQueryOne db i with
    | some row =>
      ((OK_RESPONSE, printJson (encodeArticle ⟨some row.id, row.title, row.content, row.source⟩)),
       db)
    | none => ((NOT_FOUND, "Article not found"), db)
  | _, _ => ((INTERNAL_SERVER_ERROR, "Error"), db)

/-- Source `handle_get_all_request` (the `query` call is `unwrap`ped, so a
query failure panics: `none`). -/
def handle_get_all_request (connOk queryOk : Bool) (db : DB) :
    Option ((String × String) × DB) :=
  match connOk with
  | true =>
    if queryOk then
      some ((OK_RESPONSE,
             printJson (.arr (db.rows.map
               (fun row => encodeArticle ⟨some row.id, row.title, row.content, row.source⟩)))),
            db)
    else none
  | false => some ((INTERNAL_SERVER_ERROR, "Error"), db)

/-- Source `handle_put_request`: id, body and connection must all succeed;
the `execute` is `unwrap`ped (`none` on failure); no existence check. -/
def handle_put_request (request : String) (connOk execOk : Bool) (db : DB) :
    Option ((String × String) × DB) :=
  match parseI32 (get_id request), get_article_request_body request, connOk with
  | some i, some article, true =>
    if execOk then
      some ((OK_RESPONSE, "Article updated"),
            dbUpdate db i article.title article.content article.source)
    else none
  | _, _, _ => some ((INTERNAL_SERVER_ERROR, "Error"), db)

/-- Source `handle_delete_request`: 404 when zero rows were affected. -/
def handle_delete_request (request : String) (connOk execOk : Bool) (db : DB) :
    Option ((String × String) × DB) :=
  match parseI32 (get_id request), connOk with
  | some i, true =>
    if execOk then
      let r := dbDeleteById db i
      if r.2 = 0 then some ((NOT_FOUND, "Article not found"), r.1)
      else some ((OK_RESPONSE, "Article deleted"), r.1)
    else none
  | _, _ => some ((INTERNAL_SERVER_ERROR, "Error"), db)

/-- Insertion loop of `handle_scrape_imdb` over the `titles.zip(1..11)`
pairs; `insertOk k` is the outcome of the `k`-th `execute` call, and the
first failure aborts with a 500, keeping earlier inserts. -/
def scrapeLoop (insertOk : Nat → Bool) : List (String × Nat) → Nat → DB →
    (String × String) × DB
  | [], _, db => ((OK_RESPONSE, "Scraping completed"), db)
  | (item, number) :: rest, k, db =>
    if insertOk k then
      scrapeLoop insertOk rest (k + 1)
        (dbInsert db item (toString number ++ ". " ++ item) "imdb")
    else ((INTERNAL_SERVER_ERROR, "Error inserting article into database"), db)

/-- Source `handle_scrape_imdb` from the point where the page has been
fetched and the selector applied: `titles` is the extracted
`inner_html` sequence; `titles.zip(1..11)` restricts to the first ten. -/
def handle_scrape_imdb (titles : List String) (connOk : Bool)
    (insertOk : Nat → Bool) (db : DB) : (String × String) × DB :=
  match connOk with
  | true => scrapeLoop insertOk (titles.zip (List.range' 1 10)) 0 db
  | false => ((INTERNAL_SERVER_ERROR, "Database connection error"), db)

/-- Source `handle_delete_by_source` (the `execute` is `unwrap`ped). -/
def handle_delete_by_source (connOk execOk : Bool) (source : String) (db : DB) :
    Option ((String × String) × DB) :=
  match connOk with
  | true =>
    if execOk then
      let r := dbDeleteBySource db source
      if r.2 = 0 then some ((NOT_FOUND, "No articles found for the given source"), r.1)
      else some ((OK_RESPONSE, "Articles deleted"), r.1)
    else none
  | false => some ((INTERNAL_SERVER_ERROR, "Database connection error"), db)

/-- Rust `request.starts_with(p)`. -/
def startsWith (r p : String) : Bool :=
  p.toList.isPrefixOf r.toList

/-- The route chosen by the dispatcher match in `handle_client`. -/
inductive Route where
  | post
  | getOne
  | getAll
  | put
  | del
  | scrape
  | deleteBySource
  | notFound
deriving DecidableEq, Repr

/-- The guard chain of the `match` in source `handle_client`, in source
order. -/
def dispatchRoute (r : String) : Route :=
  if startsWith r "POST /articles" then .post
  else if startsWith r "GET /articles/" then .getOne
  else if startsWith r "GET /articles" then .getAll
  else if startsWith r "PUT /articles/" then .put
  else if startsWith r "DELETE /articles/" then .del
  else if startsWith r "POST /scrape/imdb" then .scrape
  else if startsWith r "DELETE /scrape/source/imdb" then .deleteBySource
  else .notFound

/-- The route table in the order the specification lists it. -/
def routeTable : List (String × Route) :=
  [("POST /articles", .post), ("GET /articles/", .getOne), ("GET /articles", .getAll),
   ("PUT /articles/", .put), ("DELETE /articles/", .del),
   ("POST /scrape/imdb", .scrape), ("DELETE /scrape/source/imdb", .deleteBySource)]

/-- Modelled from the spec wording: scan the ordered table, first matching
prefix wins, otherwise not-found. -/
def firstMatchRoute (r : String) : Route :=
  ((routeTable.find? (fun e => startsWith r e.1)).map (fun e => e.2)).getD .notFound

/-- Outcomes of the external calls a single request can make. -/
structure Oracles where
  connOk : Bool
  execOk : Bool
  insertOkAt : Nat → Bool
  fetched : Option (List String)
  fetchErrBody : String

/-- Source `handle_client` on the decoded request text: dispatch by literal
prefixes in source order, and fall through to the fixed 404 response.
The scrape arm's fetch stage is external: `o.fetched` is the extracted
title list on success, and `o.fetchErrBody` the formatted error message
the source builds on a fetch failure. -/
def handle_client (request : String) (o : Oracles) (db : DB) :
    Option ((String × String) × DB) :=
  if startsWith request "POST /articles" then
    handle_post_request request o.connOk o.execOk db
  else if startsWith request "GET /articles/" then
    some (handle_get_request request o.connOk db)
  else if startsWith request "GET /articles" then
    handle_get_all_request o.connOk o.execOk db
  else if startsWith request "PUT /articles/" then
    handle_put_request request o.connOk o.execOk db
  else if startsWith request "DELETE /articles/" then
    handle_delete_request request o.connOk o.execOk db
  else if startsWith request "POST /scrape/imdb" then
    match o.fetched with
    | some titles => some (handle_scrape_imdb titles o.connOk o.insertOkAt db)
    | none => some ((INTERNAL_SERVER_ERROR, o.fetchErrBody), db)
  else if startsWith request "DELETE /scrape/source/imdb" then
    handle_delete_by_source o.connOk o.execOk "imdb" db
  else
    some ((NOT_FOUND, "404 Not Found"), db)

/-- The rows the scrape loop inserts for a pair list, with ids assigned
sequentially from `nid`. -/
def rowsFor (nid : Int) : List (String × Nat) → List DBRow
  | [] => []
  | (item, number) :: rest =>
    ⟨nid, item, toString number ++ ". " ++ item, "imdb"⟩ :: rowsFor (nid + 1) rest

/-- The body-extraction rule exactly as claim C2 states it: the substring
after the first blank-line separator, empty when there is none. -/
def bodyAfterFirstSep (request : String) : String :=
  match findIdxSub crlf2 request.toList with
  | some i => (request.toList.drop (i + 4)).asString
  | none => ""

/-- The identifier rule exactly as claim C8 states it: the third
slash-delimited token of the request line (the text before the first CRLF),
truncated at the first white-space character, empty if absent. -/
def idFromRequestLine (request : String) : String :=
  let line := (rustSplit ['\r', '\n'] request.toList).headD []
  let tok := ((rustSplit slashSep line).get? 2).getD []
  (tok.takeWhile (fun c => !(rustIsWs c))).asString

lemma asString_toList (s : String) : s.toList.asString = s := rfl

lemma toList_asString (l : List Char) : l.asString.toList = l := rfl

lemma splitSeqFuel_ne_nil (sep : List Char) (fuel : Nat) (cs : List Char) :
    splitSeqFuel sep fuel cs ≠ [] := by
  cases fuel with
  | zero => simp [splitSeqFuel]
  | succ n =>
    unfold splitSeqFuel
    cases h : findIdxSub sep cs <;> simp

lemma findIdxSub_some_le {sep cs : List Char} {i : Nat}
    (h : findIdxSub sep cs = some i) : i ≤ cs.length := by
  have h' : (List.range (cs.length + 1)).find? (fun j => sep.isPrefixOf (cs.drop j))
      = some i := h
  have hm := List.mem_of_find?_eq_some h'
  have := List.mem_range.mp hm
  omega

lemma findIdxSub_some_pred {sep cs : List Char} {i : Nat}
    (h : findIdxSub sep cs = some i) : sep.isPrefixOf (cs.drop i) = true := by
  have h' : (List.range (cs.length + 1)).find? (fun j => sep.isPrefixOf (cs.drop j))
      = some i := h
  have hp := List.find?_some h'
  simpa using hp

lemma findIdxSub_decomp {sep cs : List Char} {i : Nat}
    (h : findIdxSub sep cs = some i) :
    cs = cs.take i ++ sep ++ cs.drop (i + sep.length) ∧ i + sep.length ≤ cs.length := by
  have hp := findIdxSub_some_pred h
  have hpfx : sep <+: cs.drop i := List.isPrefixOf_iff_prefix.mp hp
  obtain ⟨t, ht⟩ := hpfx
  have hile := findIdxSub_some_le h
  have hdl : (cs.drop i).length = cs.length - i := List.length_drop i cs
  have hlen : sep.length ≤ (cs.drop i).length := by
    rw [← ht]
    simp
  have hbound : i + sep.length ≤ cs.length := by omega
  have ht' : cs.drop (i + sep.length) = t := by
    have h1 : (sep ++ t).drop sep.length = t := List.drop_left sep t
    rw [ht] at h1
    rw [List.drop_drop] at h1
    exact h1
  constructor
  · rw [ht', List.append_assoc, ht, List.take_append_drop]
  · exact hbound

lemma findIdxSub_nil_of_ne_nil {sep : List Char} (hsep : sep ≠ []) :
    findIdxSub sep [] = none := by
  cases sep with
  | nil => exact absurd rfl hsep
  | cons a as => simp [findIdxSub, List.find?, List.isPrefixOf]

lemma lastSeg_spec (sep : List Char) (hsep : sep ≠ []) :
    ∀ (fuel : Nat) (cs : List Char), cs.length ≤ fuel →
      containsSeq sep (((splitSeqFuel sep fuel cs).getLast?).getD []) = false ∧
      ((containsSeq sep cs = false ∧ ((splitSeqFuel sep fuel cs).getLast?).getD [] = cs) ∨
       ∃ u, cs = u ++ sep ++ ((splitSeqFuel sep fuel cs).getLast?).getD []) := by
  intro fuel
  induction fuel with
  | zero =>
    intro cs hcs
    have hnil : cs = [] := List.length_eq_zero.mp (Nat.le_zero.mp hcs)
    subst hnil
    have hnone := findIdxSub_nil_of_ne_nil hsep
    refine ⟨?_, Or.inl ⟨?_, ?_⟩⟩
    · simp [splitSeqFuel, containsSeq, hnone]
    · simp [containsSeq, hnone]
    · simp [splitSeqFuel]
  | succ n ih =>
    intro cs hcs
    cases hf : findIdxSub sep cs with
    | none =>
      refine ⟨?_, Or.inl ⟨?_, ?_⟩⟩
      · simp [splitSeqFuel, hf, containsSeq]
      · simp [containsSeq, hf]
      · simp [splitSeqFuel, hf]
    | some i =>
      have hdec := findIdxSub_decomp hf
      have hslen : 0 < sep.length := List.length_pos.mpr hsep
      have hrl : (cs.drop (i + sep.length)).length = cs.length - (i + sep.length) :=
        List.length_drop _ _
      have hlen : (cs.drop (i + sep.length)).length ≤ n := by omega
      have hsplit : splitSeqFuel sep (n + 1) cs
          = cs.take i :: splitSeqFuel sep n (cs.drop (i + sep.length)) := by
        simp [splitSeqFuel, hf]
      have hne := splitSeqFuel_ne_nil sep n (cs.drop (i + sep.length))
      obtain ⟨b, l, hbl⟩ := List.exists_cons_of_ne_nil hne
      have hlast : ((splitSeqFuel sep (n + 1) cs).getLast?).getD []
          = ((splitSeqFuel sep n (cs.drop (i + sep.length))).getLast?).getD [] := by
        rw [hsplit, hbl, List.getLast?_cons_cons]
      obtain ⟨ihA, ihB⟩ := ih (cs.drop (i + sep.length)) hlen
      rw [hlast]
      set body := ((splitSeqFuel sep n (cs.drop (i + sep.length))).getLast?).getD [] with hbody
      refine ⟨ihA, Or.inr ?_⟩
      rcases ihB with ⟨hnc, heq⟩ | ⟨u, hu⟩
      · exact ⟨cs.take i, by rw [heq]; exact hdec.1⟩
      · refine ⟨cs.take i ++ sep ++ u, ?_⟩
        conv_lhs => rw [hdec.1]
        rw [hu]
        simp [List.append_assoc]

lemma swAux_head_acc :
    ∀ (cs acc : List Char), acc ≠ [] →
      (swAux cs acc).headD [] = acc.reverse ++ cs.takeWhile (fun c => !(rustIsWs c)) := by
  intro cs
  induction cs with
  | nil =>
    intro acc h
    have : acc.isEmpty = false := by simpa [List.isEmpty_iff] using h
    simp [swAux, this]
  | cons c rest ih =>
    intro acc h
    have hae : acc.isEmpty = false := by simpa [List.isEmpty_iff] using h
    cases hw : rustIsWs c with
    | true => simp [swAux, hw, hae, List.takeWhile_cons]
    | false =>
      rw [show swAux (c :: rest) acc = swAux rest (c :: acc) by simp [swAux, hw]]
      rw [ih (c :: acc) (by simp)]
      simp [List.takeWhile_cons, hw, List.append_assoc]

lemma swAux_head_nil :
    ∀ cs : List Char,
      (swAux cs []).headD [] = (cs.dropWhile rustIsWs).takeWhile (fun c => !(rustIsWs c)) := by
  intro cs
  induction cs with
  | nil => simp [swAux]
  | cons c rest ih =>
    cases hw : rustIsWs c with
    | true =>
      rw [show swAux (c :: rest) [] = swAux rest [] by simp [swAux, hw]]
      rw [ih]
      simp [List.dropWhile_cons, hw]
    | false =>
      rw [show swAux (c :: rest) [] = swAux rest [c] by simp [swAux, hw]]
      rw [swAux_head_acc rest [c] (by simp)]
      simp [List.dropWhile_cons, List.takeWhile_cons, hw]

lemma scrapeLoop_all_ok (insertOk : Nat → Bool) :
    ∀ (pairs : List (String × Nat)) (k : Nat) (db : DB),
      (∀ j, j < pairs.length → insertOk (k + j) = true) →
      scrapeLoop insertOk pairs k db
        = ((OK_RESPONSE, "Scraping completed"),
           ⟨db.rows ++ rowsFor db.nextId pairs, db.nextId + (pairs.length : Int)⟩) := by
  intro pairs
  induction pairs with
  | nil =>
    intro k db h
    simp [scrapeLoop, rowsFor]
  | cons p rest ih =>
    obtain ⟨item, number⟩ := p
    intro k db h
    have h0 : insertOk k = true := by simpa using h 0 (by simp)
    rw [show scrapeLoop insertOk ((item, number) :: rest) k db
        = scrapeLoop insertOk rest (k + 1)
            (dbInsert db item (toString number ++ ". " ++ item) "imdb") by
      simp [scrapeLoop, h0]]
    rw [ih (k + 1) (dbInsert db item (toString number ++ ". " ++ item) "imdb")
      (fun j hj => by
        have hr := h (j + 1) (by simpa using Nat.succ_lt_succ hj)
        rwa [show k + 1 + j = k + (j + 1) by omega])]
    simp only [dbInsert, rowsFor, Prod.mk.injEq, DB.mk.injEq, List.append_assoc,
      List.singleton_append, List.length_cons, true_and]
    push_cast
    omega

lemma scrapeLoop_first_fail (insertOk : Nat → Bool) :
    ∀ (j : Nat) (pairs : List (String × Nat)) (k : Nat) (db : DB),
      j < pairs.length →
      (∀ m, m < j → insertOk (k + m) = true) →
      insertOk (k + j) = false →
      scrapeLoop insertOk pairs k db
        = ((INTERNAL_SERVER_ERROR, "Error inserting article into database"),
           ⟨db.rows ++ rowsFor db.nextId (pairs.take j), db.nextId + (j : Int)⟩) := by
  intro j
  induction j with
  | zero =>
    intro pairs k db hlen hpre hfail
    cases pairs with
    | nil => simp at hlen
    | cons p rest =>
      obtain ⟨item, number⟩ := p
      have h0 : insertOk k = false := by simpa using hfail
      simp [scrapeLoop, h0, rowsFor]
  | succ jj ih =>
    intro pairs k db hlen hpre hfail
    cases pairs with
    | nil => simp at hlen
    | cons p rest =>
      obtain ⟨item, number⟩ := p
      have h0 : insertOk k = true := by simpa using hpre 0 (Nat.succ_pos _)
      rw [show scrapeLoop insertOk ((item, number) :: rest) k db
          = scrapeLoop insertOk rest (k + 1)
              (dbInsert db item (toString number ++ ". " ++ item) "imdb") by
        simp [scrapeLoop, h0]]
      rw [ih rest (k + 1) (dbInsert db item (toString number ++ ". " ++ item) "imdb")
        (by simpa using hlen)
        (fun m hm => by
          have hr := hpre (m + 1) (Nat.succ_lt_succ hm)
          rwa [show k + 1 + m = k + (m + 1) by omega])
        (by rwa [show k + 1 + jj = k + (jj + 1) by omega])]
      simp only [dbInsert, rowsFor, List.take_succ_cons, Prod.mk.injEq, DB.mk.injEq,
        List.append_assoc, List.singleton_append, true_and]
      push_cast
      omega

lemma scrapeLoop_ok_only_if (insertOk : Nat → Bool) :
    ∀ (pairs : List (String × Nat)) (k : Nat) (db : DB),
      (scrapeLoop insertOk pairs k db).1 = (OK_RESPONSE, "Scraping completed") →
      ∀ j, j < pairs.length → insertOk (k + j) = true := by
  intro pairs
  induction pairs with
  | nil =>
    intro k db h j hj
    simp at hj
  | cons p rest ih =>
    obtain ⟨item, number⟩ := p
    intro k db h j hj
    cases h0 : insertOk k with
    | false =>
      exfalso
      rw [show scrapeLoop insertOk ((item, number) :: rest) k db
          = ((INTERNAL_SERVER_ERROR, "Error inserting article into database"), db) by
        simp [scrapeLoop, h0]] at h
      simp only at h
      exact absurd h (by decide)
    | true =>
      cases j with
      | zero => simpa using h0
      | succ m =>
        have h2 : (scrapeLoop insertOk rest (k + 1)
            (dbInsert db item (toString number ++ ". " ++ item) "imdb")).1
            = (OK_RESPONSE, "Scraping completed") := by
          rw [show scrapeLoop insertOk ((item, number) :: rest) k db
              = scrapeLoop insertOk rest (k + 1)
                  (dbInsert db item (toString number ++ ". " ++ item) "imdb") by
            simp [scrapeLoop, h0]] at h
          exact h
        have h3 := ih (k + 1) _ h2 m (by simp at hj; omega)
        rwa [show k + 1 + m = k + (m + 1) by omega] at h3

lemma decodeStep_id (st : DecSlots) (v : JsonVal) (x : Option Int)
    (hid : st.idS = none) (hv : decodeOptI32 v = some x) :
    decodeStep st ("id", v) = some ⟨some x, st.tS, st.cS, st.sS⟩ := by
  simp [decodeStep, hid, hv]

/-- Value-level half of the round trip: decoding the encoded JSON value of a
record restores the record. -/
lemma decodeArticle_encodeArticle (a : Article)
    (h : ∀ n, a.id = some n → -2147483648 ≤ n ∧ n ≤ 2147483647) :
    decodeArticle (encodeArticle a) = some a := by
  obtain ⟨oid, t, c, s⟩ := a
  cases oid with
  | none => rfl
  | some n =>
    have hd : decodeOptI32 (JsonVal.num n) = some (some n) := by
      simp only [decodeOptI32]
      rw [if_pos (h n rfl)]
    have hstep := decodeStep_id ⟨none, none, none, none⟩ (JsonVal.num n) (some n) rfl hd
    show decodeFields [("id", JsonVal.num n), ("title", JsonVal.str t),
        ("content", JsonVal.str c), ("source", JsonVal.str s)] ⟨none, none, none, none⟩
      = some ⟨some n, t, c, s⟩
    rw [show decodeFields [("id", JsonVal.num n), ("title", JsonVal.str t),
        ("content", JsonVal.str c), ("source", JsonVal.str s)] ⟨none, none, none, none⟩
      = decodeFields [("title", JsonVal.str t), ("content", JsonVal.str c),
          ("source", JsonVal.str s)] ⟨some (some n), none, none, none⟩ from by
      simp [decodeFields, hstep]]
    rfl



/-- C2 counterexample: the code takes the text after the last blank-line
separator, not the first, and with no separator it yields the whole request,
not the empty string. -/
theorem c2_body_counterexample :
    extractBody "A\r\n\r\nB\r\n\r\nC" = "C"
    ∧ bodyAfterFirstSep "A\r\n\r\nB\r\n\r\nC" = "B\r\n\r\nC"
    ∧ extractBody "A\r\n\r\nB\r\n\r\nC" ≠ bodyAfterFirstSep "A\r\n\r\nB\r\n\r\nC"
    ∧ extractBody "abc" = "abc"
    ∧ bodyAfterFirstSep "abc" = ""
    ∧ extractBody "abc" ≠ bodyAfterFirstSep "abc" := by decide

/-- C2 amended: the extracted body is the final segment of splitting the
request on the blank-line separator: it contains no separator occurrence;
it is the whole request when the request contains none, and otherwise a
suffix immediately preceded by an occurrence of the separator. -/
theorem c2_body_amended (r : String) :
    containsSeq crlf2 (extractBody r).toList = false
    ∧ ((containsSeq crlf2 r.toList = false ∧ extractBody r = r)
       ∨ ∃ u : List Char, r.toList = u ++ crlf2 ++ (extractBody r).toList) := by
  obtain ⟨hA, hB⟩ := lastSeg_spec crlf2 (by decide) r.toList.length r.toList (le_refl _)
  constructor
  · exact hA
  · rcases hB with ⟨hnc, heq⟩ | ⟨u, hu⟩
    · left
      refine ⟨hnc, ?_⟩
      have h2 : (extractBody r).toList = r.toList := heq
      calc extractBody r = (extractBody r).toList.asString := (asString_toList _).symm
        _ = r.toList.asString := by rw [h2]
        _ = r := asString_toList r
    · right
      exact ⟨u, hu⟩

/-- C8 counterexample: `get_id` splits the whole request text, not just the
request line (first input), and takes the first white-space-separated word
rather than truncating at the first white-space character (second input). -/
theorem c8_id_counterexample :
    get_id "GET /a\r\nH: x/y/z" = "y"
    ∧ idFromRequestLine "GET /a\r\nH: x/y/z" = ""
    ∧ get_id "GET /a\r\nH: x/y/z" ≠ idFromRequestLine "GET /a\r\nH: x/y/z"
    ∧ get_id "GET /a/ b HTTP/1.1" = "b"
    ∧ idFromRequestLine "GET /a/ b HTTP/1.1" = "" := by decide

/-- C8 amended: the identifier is the first white-space-separated word
(leading white space skipped) of the third slash-delimited token of the
entire decoded request text, and empty when that token is absent or contains
no non-white-space character. -/
theorem c8_id_amended (r : String) :
    get_id r = (((((rustSplit slashSep r.toList).get? 2).getD []).dropWhile
      rustIsWs).takeWhile (fun c => !(rustIsWs c))).asString := by
  unfold get_id splitWsFirst
  rw [swAux_head_nil]

/-- C1: the dispatcher equals the first-match scan of the ordered prefix
table (so `GET /articles/` is tested before `GET /articles`), and every
request matching none of the prefixes gets the 404 status line with body
exactly "404 Not Found". -/
theorem c1_dispatch_first_match :
    (∀ r, dispatchRoute r = firstMatchRoute r)
    ∧ (∀ (r : String) (o : Oracles) (db : DB),
        routeTable.all (fun e => !(startsWith r e.1)) = true →
        handle_client r o db = some ((NOT_FOUND, "404 Not Found"), db)) := by
  constructor
  · intro r
    unfold dispatchRoute firstMatchRoute routeTable
    cases h1 : startsWith r "POST /articles" <;>
    cases h2 : startsWith r "GET /articles/" <;>
    cases h3 : startsWith r "GET /articles" <;>
    cases h4 : startsWith r "PUT /articles/" <;>
    cases h5 : startsWith r "DELETE /articles/" <;>
    cases h6 : startsWith r "POST /scrape/imdb" <;>
    cases h7 : startsWith r "DELETE /scrape/source/imdb" <;>
    simp [List.find?, h1, h2, h3, h4, h5, h6, h7]
  · intro r o db h
    simp only [routeTable, List.all_cons, List.all_nil, Bool.and_eq_true,
      Bool.not_eq_true'] at h
    obtain ⟨n1, n2, n3, n4, n5, n6, n7, -⟩ := h
    simp [handle_client, n1, n2, n3, n4, n5, n6, n7]

/-- Witness for C1: a request matching no route prefix gets the fixed 404. -/
theorem c1_witness :
    routeTable.all (fun e => !(startsWith "OPTIONS /ping HTTP/1.1" e.1)) = true
    ∧ handle_client "OPTIONS /ping HTTP/1.1" ⟨true, true, fun _ => true, none, ""⟩ ⟨[], 1⟩
        = some ((NOT_FOUND, "404 Not Found"), ⟨[], 1⟩) :=
  ⟨by decide,
   c1_dispatch_first_match.2 "OPTIONS /ping HTTP/1.1"
     ⟨true, true, fun _ => true, none, ""⟩ ⟨[], 1⟩ (by decide)⟩

/-- C3: when the identifier and the JSON body both parse, the update handler
answers 200 "Article updated" for every database state, including states with
no row of that id (where the update is a no-op); when either fails to parse
it answers 500. -/
theorem c3_put_no_existence_check (r : String) (db : DB) (i : Int) (a : Article)
    (hid : parseI32 (get_id r) = some i)
    (hbody : get_article_request_body r = some a) :
    (handle_put_request r true true db
      = some ((OK_RESPONSE, "Article updated"), dbUpdate db i a.title a.content a.source))
    ∧ ((∀ row ∈ db.rows, row.id ≠ i) → dbUpdate db i a.title a.content a.source = db)
    ∧ (∀ (r2 : String) (db2 : DB) (ck ek : Bool),
        (parseI32 (get_id r2) = none ∨ get_article_request_body r2 = none) →
        handle_put_request r2 ck ek db2 = some ((INTERNAL_SERVER_ERROR, "Error"), db2)) := by
  refine ⟨?_, ?_, ?_⟩
  · simp [handle_put_request, hid, hbody]
  · intro hno
    unfold dbUpdate
    rw [show db.rows.map (fun row =>
          if row.id == i then (⟨row.id, a.title, a.content, a.source⟩ : DBRow) else row)
        = db.rows.map id from
      List.map_congr_left (fun row hrow => by
        have : (row.id == i) = false := by
          simpa using hno row hrow
        simp [this])]
    rw [List.map_id]
  · intro r2 db2 ck ek h2
    rcases h2 with h2 | h2
    · cases hb : get_article_request_body r2 <;> cases ck <;>
        simp [handle_put_request, h2, hb]
    · cases hi : parseI32 (get_id r2) <;> cases ck <;>
        simp [handle_put_request, h2, hi]

/-- Witness for C3 at a concrete PUT request on an empty table. -/
theorem c3_witness :
    parseI32 (get_id "PUT /articles/7 HTTP/1.1\r\nHost: x\r\n\r\n\x7b\"title\":\"A\",\"content\":\"B\",\"source\":\"C\"\x7d") = some 7
    ∧ get_article_request_body "PUT /articles/7 HTTP/1.1\r\nHost: x\r\n\r\n\x7b\"title\":\"A\",\"content\":\"B\",\"source\":\"C\"\x7d" = some ⟨none, "A", "B", "C"⟩
    ∧ handle_put_request "PUT /articles/7 HTTP/1.1\r\nHost: x\r\n\r\n\x7b\"title\":\"A\",\"content\":\"B\",\"source\":\"C\"\x7d" true true ⟨[], 1⟩
        = some ((OK_RESPONSE, "Article updated"), dbUpdate ⟨[], 1⟩ 7 "A" "B" "C") :=
  ⟨by decide, by decide,
   (c3_put_no_existence_check
     "PUT /articles/7 HTTP/1.1\r\nHost: x\r\n\r\n\x7b\"title\":\"A\",\"content\":\"B\",\"source\":\"C\"\x7d"
     ⟨[], 1⟩ 7 ⟨none, "A", "B", "C"⟩ (by decide) (by decide)).1⟩

/-- C10: in the create handler the 500 branch is reachable exactly for
JSON-parse and connection failures; when the body parses and the connection
succeeds but the insert fails, the handler produces no response at all (the
`unwrap` panics). -/
theorem c10_post_insert_panic (r : String) (db : DB) :
    (∀ a, get_article_request_body r = some a →
       handle_post_request r true true db
         = some ((OK_RESPONSE, "Article created"), dbInsert db a.title a.content a.source)
       ∧ handle_post_request r true false db = none)
    ∧ (get_article_request_body r = none →
       ∀ ck ik, handle_post_request r ck ik db = some ((INTERNAL_SERVER_ERROR, "Error"), db))
    ∧ (∀ ik, handle_post_request r false ik db = some ((INTERNAL_SERVER_ERROR, "Error"), db))
    ∧ (∀ (ck ik : Bool) (resp : String) (db2 : DB),
        handle_post_request r ck ik db = some ((INTERNAL_SERVER_ERROR, resp), db2) →
        get_article_request_body r = none ∨ ck = false) := by
  refine ⟨?_, ?_, ?_, ?_⟩
  · intro a ha
    exact ⟨by simp [handle_post_request, ha], by simp [handle_post_request, ha]⟩
  · intro hn ck ik
    cases ck <;> simp [handle_post_request, hn]
  · intro ik
    cases hb : get_article_request_body r <;> simp [handle_post_request, hb]
  · intro ck ik resp db2 hresp
    cases hb : get_article_request_body r with
    | none => exact Or.inl rfl
    | some a =>
      cases ck with
      | false => exact Or.inr rfl
      | true =>
        exfalso
        cases ik with
        | true =>
          rw [show handle_post_request r true true db
              = some ((OK_RESPONSE, "Article created"),
                      dbInsert db a.title a.content a.source) from by
            simp [handle_post_request, hb]] at hresp
          have hok : OK_RESPONSE = INTERNAL_SERVER_ERROR := by
            have h3 := Option.some.inj hresp
            exact congrArg (fun p => p.1.1) h3
          exact absurd hok (by decide)
        | false =>
          rw [show handle_post_request r true false db = none from by
            simp [handle_post_request, hb]] at hresp
          exact Option.noConfusion hresp

/-- Witness for C10: a POST whose body parses, with the insert failing,
produces no response; with the insert succeeding it creates the row. -/
theorem c10_witness :
    get_article_request_body "POST /articles HTTP/1.1\r\n\r\n\x7b\"title\":\"A\",\"content\":\"B\",\"source\":\"C\"\x7d" = some ⟨none, "A", "B", "C"⟩
    ∧ handle_post_request "POST /articles HTTP/1.1\r\n\r\n\x7b\"title\":\"A\",\"content\":\"B\",\"source\":\"C\"\x7d" true false ⟨[], 1⟩ = none :=
  ⟨by decide,
   ((c10_post_insert_panic
      "POST /articles HTTP/1.1\r\n\r\n\x7b\"title\":\"A\",\"content\":\"B\",\"source\":\"C\"\x7d"
      ⟨[], 1⟩).1 ⟨none, "A", "B", "C"⟩ (by decide)).2⟩

/-- C4: with a parseable id, the delete handler answers 200 "Article deleted"
exactly when at least one row matched and 404 when none did; after a
successful delete, reading that id answers 404 and deleting it again answers
404. -/
theorem c4_delete_then_read (r rg : String) (db : DB) (i : Int)
    (hid : parseI32 (get_id r) = some i)
    (hgid : parseI32 (get_id rg) = some i) :
    ((db.rows.any (fun row => row.id == i)) = true →
       handle_delete_request r true true db
         = some ((OK_RESPONSE, "Article deleted"),
                 ⟨db.rows.filter (fun row => !(row.id == i)), db.nextId⟩)
       ∧ handle_get_request rg true ⟨db.rows.filter (fun row => !(row.id == i)), db.nextId⟩
         = ((NOT_FOUND, "Article not found"),
            ⟨db.rows.filter (fun row => !(row.id == i)), db.nextId⟩)
       ∧ handle_delete_request r true true
           ⟨db.rows.filter (fun row => !(row.id == i)), db.nextId⟩
         = some ((NOT_FOUND, "Article not found"),
                 ⟨db.rows.filter (fun row => !(row.id == i)), db.nextId⟩))
    ∧ ((db.rows.any (fun row => row.id == i)) = false →
       handle_delete_request r true true db
         = some ((NOT_FOUND, "Article not found"), db)) := by
  constructor
  · intro hany
    have hcz : db.rows.countP (fun row => row.id == i) ≠ 0 := by
      rw [Ne, List.countP_eq_zero]
      push_neg
      obtain ⟨row, hrow, hp⟩ := List.any_eq_true.mp hany
      exact ⟨row, hrow, hp⟩
    have hcz2 : (db.rows.filter (fun row => !(row.id == i))).countP
        (fun row => row.id == i) = 0 := by
      rw [List.countP_eq_zero]
      intro row hrow
      have h2 := (List.mem_filter.mp hrow).2
      simp at h2 ⊢
      exact h2
    have hff : (db.rows.filter (fun row => !(row.id == i))).filter
        (fun row => !(row.id == i)) = db.rows.filter (fun row => !(row.id == i)) := by
      rw [List.filter_filter]
      simp
    have hfe : (db.rows.filter (fun row => !(row.id == i))).filter
        (fun row => row.id == i) = [] := by
      rw [List.filter_filter]
      simp
    refine ⟨?_, ?_, ?_⟩
    · simp [handle_delete_request, hid, dbDeleteById, hcz]
    · simp [handle_get_request, hgid, dbQueryOne, hfe]
    · simp [handle_delete_request, hid, dbDeleteById, hcz2, hff]
  · intro hany
    have hrow_false : ∀ row ∈ db.rows, (row.id == i) = false := by
      intro row hrow
      cases hb : (row.id == i) with
      | false => rfl
      | true =>
        have h3 : db.rows.any (fun row => row.id == i) = true :=
          List.any_eq_true.mpr ⟨row, hrow, hb⟩
        rw [h3] at hany
        exact Bool.noConfusion hany
    have hcz : db.rows.countP (fun row => row.id == i) = 0 := by
      rw [List.countP_eq_zero]
      intro row hrow
      simp [hrow_false row hrow]
    have hfe : db.rows.filter (fun row => !(row.id == i)) = db.rows := by
      rw [List.filter_eq_self]
      intro row hrow
      simp [hrow_false row hrow]
    simp [handle_delete_request, hid, dbDeleteById, hcz, hfe]

/-- Witness for C4: delete an existing row, then read and delete it again. -/
theorem c4_witness :
    parseI32 (get_id "DELETE /articles/5 HTTP/1.1") = some 5
    ∧ parseI32 (get_id "GET /articles/5 HTTP/1.1") = some 5
    ∧ ((⟨[⟨5, "t", "c", "s"⟩], 6⟩ : DB).rows.any (fun row => row.id == 5)) = true
    ∧ (handle_delete_request "DELETE /articles/5 HTTP/1.1" true true ⟨[⟨5, "t", "c", "s"⟩], 6⟩
         = some ((OK_RESPONSE, "Article deleted"), ⟨[], 6⟩)
       ∧ handle_get_request "GET /articles/5 HTTP/1.1" true ⟨[], 6⟩
         = ((NOT_FOUND, "Article not found"), ⟨[], 6⟩)
       ∧ handle_delete_request "DELETE /articles/5 HTTP/1.1" true true ⟨[], 6⟩
         = some ((NOT_FOUND, "Article not found"), ⟨[], 6⟩)) :=
  ⟨by decide, by decide, by decide,
   (c4_delete_then_read "DELETE /articles/5 HTTP/1.1" "GET /articles/5 HTTP/1.1"
     ⟨[⟨5, "t", "c", "s"⟩], 6⟩ 5 (by decide) (by decide)).1 (by decide)⟩

/-- C7: the delete-by-source handler leaves exactly the rows whose source
differs from the given string (those rows unchanged and in order), answers
404 when no row matched and 200 "Articles deleted" otherwise, and a second
run on the result always answers 404. -/
theorem c7_delete_by_source_frame (s : String) (db : DB) :
    handle_delete_by_source true true s db
      = some ((if db.rows.any (fun row => row.source == s) then OK_RESPONSE else NOT_FOUND,
               if db.rows.any (fun row => row.source == s) then "Articles deleted"
               else "No articles found for the given source"),
              ⟨db.rows.filter (fun row => !(row.source == s)), db.nextId⟩)
    ∧ handle_delete_by_source true true s
        ⟨db.rows.filter (fun row => !(row.source == s)), db.nextId⟩
      = some ((NOT_FOUND, "No articles found for the given source"),
              ⟨db.rows.filter (fun row => !(row.source == s)), db.nextId⟩) := by
  constructor
  · cases hany : db.rows.any (fun row => row.source == s) with
    | true =>
      have hcz : db.rows.countP (fun row => row.source == s) ≠ 0 := by
        rw [Ne, List.countP_eq_zero]
        push_neg
        obtain ⟨row, hrow, hp⟩ := List.any_eq_true.mp hany
        exact ⟨row, hrow, hp⟩
      simp [handle_delete_by_source, dbDeleteBySource, hcz]
    | false =>
      have hrow_false : ∀ row ∈ db.rows, (row.source == s) = false := by
        intro row hrow
        cases hb : (row.source == s) with
        | false => rfl
        | true =>
          have h3 : db.rows.any (fun row => row.source == s) = true :=
            List.any_eq_true.mpr ⟨row, hrow, hb⟩
          rw [h3] at hany
          exact Bool.noConfusion hany
      have hcz : db.rows.countP (fun row => row.source == s) = 0 := by
        rw [List.countP_eq_zero]
        intro row hrow
        simp [hrow_false row hrow]
      simp [handle_delete_by_source, dbDeleteBySource, hcz]
  · have hcz2 : (db.rows.filter (fun row => !(row.source == s))).countP
        (fun row => row.source == s) = 0 := by
      rw [List.countP_eq_zero]
      intro row hrow
      have h2 := (List.mem_filter.mp hrow).2
      simp at h2 ⊢
      exact h2
    have hff : (db.rows.filter (fun row => !(row.source == s))).filter
        (fun row => !(row.source == s)) = db.rows.filter (fun row => !(row.source == s)) := by
      rw [List.filter_filter]
      simp
    simp [handle_delete_by_source, dbDeleteBySource, hcz2, hff]

/-- C5: with every insertion succeeding, the scrape handler inserts exactly
`min n 10` rows, in element order, with source "imdb", title the element
text, and content "rank. title" with ranks starting at 1, then answers
200 "Scraping completed". -/
theorem c5_scrape_first_ten (titles : List String) (insertOk : Nat → Bool) (db : DB)
    (h : ∀ j, insertOk j = true) :
    handle_scrape_imdb titles true insertOk db
      = ((OK_RESPONSE, "Scraping completed"),
         ⟨db.rows ++ rowsFor db.nextId (titles.zip (List.range' 1 10)),
          db.nextId + (((titles.zip (List.range' 1 10)).length : Nat) : Int)⟩)
    ∧ (titles.zip (List.range' 1 10)).length = min titles.length 10 := by
  constructor
  · show scrapeLoop insertOk (titles.zip (List.range' 1 10)) 0 db = _
    exact scrapeLoop_all_ok insertOk (titles.zip (List.range' 1 10)) 0 db
      (fun j hj => h (0 + j))
  · simp [List.length_zip, List.length_range']

/-- Witness for C5: twelve matching elements yield exactly ten rows with
contents "1. t1" through "10. t10", in element order. -/
theorem c5_witness :
    (∀ j : Nat, (fun _ : Nat => true) j = true)
    ∧ handle_scrape_imdb
        ["t1", "t2", "t3", "t4", "t5", "t6", "t7", "t8", "t9", "t10", "t11", "t12"]
        true (fun _ => true) ⟨[], 1⟩
      = ((OK_RESPONSE, "Scraping completed"),
         ⟨[⟨1, "t1", "1. t1", "imdb"⟩, ⟨2, "t2", "2. t2", "imdb"⟩,
           ⟨3, "t3", "3. t3", "imdb"⟩, ⟨4, "t4", "4. t4", "imdb"⟩,
           ⟨5, "t5", "5. t5", "imdb"⟩, ⟨6, "t6", "6. t6", "imdb"⟩,
           ⟨7, "t7", "7. t7", "imdb"⟩, ⟨8, "t8", "8. t8", "imdb"⟩,
           ⟨9, "t9", "9. t9", "imdb"⟩, ⟨10, "t10", "10. t10", "imdb"⟩], 11⟩) :=
  ⟨fun _ => rfl,
   ((c5_scrape_first_ten
      ["t1", "t2", "t3", "t4", "t5", "t6", "t7", "t8", "t9", "t10", "t11", "t12"]
      (fun _ => true) ⟨[], 1⟩ (fun _ => rfl)).1).trans (by decide)⟩

/-- C6: the first failing insertion aborts the scrape with a 500 response
while the rows inserted before the failure stay in the table, and the
200 "Scraping completed" response occurs only when every insertion in range
succeeded. -/
theorem c6_scrape_abort (titles : List String) (insertOk : Nat → Bool) (db : DB) (k : Nat)
    (hk : k < min titles.length 10)
    (hpre : ∀ j, j < k → insertOk j = true)
    (hfail : insertOk k = false) :
    handle_scrape_imdb titles true insertOk db
      = ((INTERNAL_SERVER_ERROR, "Error inserting article into database"),
         ⟨db.rows ++ rowsFor db.nextId ((titles.zip (List.range' 1 10)).take k),
          db.nextId + (k : Int)⟩)
    ∧ (∀ (insertOk2 : Nat → Bool) (db2 : DB),
        (handle_scrape_imdb titles true insertOk2 db2).1 = (OK_RESPONSE, "Scraping completed") →
        ∀ j, j < min titles.length 10 → insertOk2 j = true) := by
  have hzlen : (titles.zip (List.range' 1 10)).length = min titles.length 10 := by
    simp [List.length_zip, List.length_range']
  constructor
  · show scrapeLoop insertOk (titles.zip (List.range' 1 10)) 0 db = _
    exact scrapeLoop_first_fail insertOk k (titles.zip (List.range' 1 10)) 0 db
      (by omega) (fun m hm => by simpa using hpre m hm) (by simpa using hfail)
  · intro insertOk2 db2 hok j hj
    have h2 : (scrapeLoop insertOk2 (titles.zip (List.range' 1 10)) 0 db2).1
        = (OK_RESPONSE, "Scraping completed") := hok
    have h3 := scrapeLoop_ok_only_if insertOk2 (titles.zip (List.range' 1 10)) 0 db2 h2
      j (by omega)
    simpa using h3

/-- Witness for C6: five elements with the fourth insertion failing leave
exactly the first three rows and answer 500. -/
theorem c6_witness :
    (3 < min (["a", "b", "c", "d", "e"] : List String).length 10)
    ∧ (∀ j, j < 3 → (fun j2 : Nat => decide (j2 < 3)) j = true)
    ∧ ((fun j2 : Nat => decide (j2 < 3)) 3 = false)
    ∧ handle_scrape_imdb ["a", "b", "c", "d", "e"] true (fun j2 => decide (j2 < 3)) ⟨[], 1⟩
      = ((INTERNAL_SERVER_ERROR, "Error inserting article into database"),
         ⟨[⟨1, "a", "1. a", "imdb"⟩, ⟨2, "b", "2. b", "imdb"⟩, ⟨3, "c", "3. c", "imdb"⟩], 4⟩) :=
  ⟨by decide, fun j hj => decide_eq_true hj, by decide,
   ((c6_scrape_abort ["a", "b", "c", "d", "e"] (fun j2 => decide (j2 < 3)) ⟨[], 1⟩ 3
      (by decide) (fun j hj => decide_eq_true hj) (by decide)).1).trans (by decide)⟩

lemma toList_append (a b : String) : (a ++ b).toList = a.toList ++ b.toList :=
  String.data_append a b

lemma escapeString_toList (w : String) :
    (escapeString w).toList = '"' :: ((w.toList.map escapeChar).flatten ++ ['"']) := by
  simp [escapeString, toList_append]
  rfl

lemma escapeChar_length_pos (c : Char) : 1 ≤ (escapeChar c).length := by
  unfold escapeChar
  split_ifs <;> simp

lemma escFlatten_len (l : List Char) : l.length ≤ ((l.map escapeChar).flatten).length := by
  induction l with
  | nil => simp
  | cons c rest ih =>
    have := escapeChar_length_pos c
    simp only [List.map_cons, List.flatten_cons, List.length_append, List.length_cons]
    omega

lemma beq_eq_false_of_isDigit {c : Char} (x : Char) (hc : c.isDigit = true)
    (hx : x.isDigit = false) : (c == x) = false := by
  cases hb : c == x with
  | false => rfl
  | true =>
    rw [show c = x from beq_iff_eq.mp hb] at hc
    rw [hc] at hx
    exact Bool.noConfusion hx

lemma jsonWsChar_eq_false_of_isDigit {c : Char} (hc : c.isDigit = true) :
    jsonWsChar c = false := by
  simp only [jsonWsChar]
  rw [beq_eq_false_of_isDigit ' ' hc (by decide),
    beq_eq_false_of_isDigit '\t' hc (by decide),
    beq_eq_false_of_isDigit '\n' hc (by decide),
    beq_eq_false_of_isDigit '\r' hc (by decide)]
  rfl

lemma hexVal?_hexDigitChar (d : Nat) (h : d < 16) : hexVal? (hexDigitChar d) = some d := by
  interval_cases d <;> decide

lemma digitsToNat_append_one (l : List Char) (c : Char) :
    digitsToNat (l ++ [c]) = 10 * digitsToNat l + (c.toNat - 48) := by
  simp [digitsToNat, List.foldl_append]
  omega

lemma charDigit_facts (m : Nat) (h : m < 10) :
    (Char.ofNat (48 + m)).toNat = 48 + m ∧ (Char.ofNat (48 + m)).isDigit = true
    ∧ (m ≠ 0 → Char.ofNat (48 + m) ≠ '0') := by
  interval_cases m <;> refine ⟨by decide, by decide, fun hm => by first | decide | exact absurd rfl hm⟩

lemma natDecAux_spec :
    ∀ (fuel n : Nat) (acc : List Char), n + 1 ≤ fuel →
      ∃ ds, natDecAux fuel n acc = ds ++ acc ∧ ds ≠ []
        ∧ (∀ c ∈ ds, c.isDigit = true)
        ∧ digitsToNat ds = n
        ∧ (n = 0 ∨ ds.headD '0' ≠ '0') := by
  intro fuel
  induction fuel with
  | zero =>
    intro n acc h
    omega
  | succ f ih =>
    intro n acc h
    by_cases hn : n < 10
    · refine ⟨[Char.ofNat (48 + n)], by simp [natDecAux, hn], by simp, ?_, ?_, ?_⟩
      · intro c hc
        rw [List.mem_singleton.mp hc]
        exact (charDigit_facts n hn).2.1
      · simp [digitsToNat, (charDigit_facts n hn).1]
      · by_cases hz : n = 0
        · exact Or.inl hz
        · exact Or.inr (by simpa using (charDigit_facts n hn).2.2 hz)
    · have hd10 : n / 10 < n := Nat.div_lt_self (by omega) (by omega)
      have hb : n / 10 + 1 ≤ f := by omega
      obtain ⟨ds', h1, h2, h3, h4, h5⟩ := ih (n / 10) (Char.ofNat (48 + n % 10) :: acc) hb
      have hm : n % 10 < 10 := Nat.mod_lt n (by omega)
      refine ⟨ds' ++ [Char.ofNat (48 + n % 10)], ?_, by simp, ?_, ?_, ?_⟩
      · rw [show natDecAux (f + 1) n acc
            = natDecAux f (n / 10) (Char.ofNat (48 + n % 10) :: acc) from by
          simp [natDecAux, hn]]
        rw [h1]
        simp
      · intro ch hch
        rcases List.mem_append.mp hch with hch | hch
        · exact h3 ch hch
        · rw [List.mem_singleton.mp hch]
          exact (charDigit_facts (n % 10) hm).2.1
      · rw [digitsToNat_append_one, h4, (charDigit_facts (n % 10) hm).1]
        omega
      · right
        obtain ⟨e, es, rfl⟩ := List.exists_cons_of_ne_nil h2
        simp only [List.cons_append, List.headD_cons]
        rcases h5 with h5 | h5
        · omega
        · simpa using h5

lemma natDec_spec (n : Nat) :
    natDec n ≠ [] ∧ (∀ c ∈ natDec n, c.isDigit = true) ∧ digitsToNat (natDec n) = n
    ∧ (n = 0 ∨ (natDec n).headD '0' ≠ '0') := by
  obtain ⟨ds, h1, h2, h3, h4, h5⟩ := natDecAux_spec (n + 1) n [] (le_refl _)
  rw [List.append_nil] at h1
  rw [natDec, h1]
  exact ⟨h2, h3, h4, h5⟩

lemma takeWhile_all_front {p : Char → Bool} :
    ∀ (l : List Char) (r : Char) (rs : List Char), (∀ c ∈ l, p c = true) → p r = false →
      (l ++ r :: rs).takeWhile p = l ∧ (l ++ r :: rs).dropWhile p = r :: rs := by
  intro l
  induction l with
  | nil =>
    intro r rs _ hr
    simp [List.takeWhile_cons, List.dropWhile_cons, hr]
  | cons c cs ih =>
    intro r rs hall hr
    have hc : p c = true := hall c (by simp)
    obtain ⟨iht, ihd⟩ := ih r rs (fun x hx => hall x (by simp [hx])) hr
    simp [List.takeWhile_cons, List.dropWhile_cons, hc, iht, ihd]

lemma parseStrChars_escaped :
    ∀ (cs rest : List Char) (fuel : Nat), cs.length + 1 ≤ fuel →
      parseStrChars fuel ((cs.map escapeChar).flatten ++ '"' :: rest) = some (cs, rest) := by
  intro cs
  induction cs with
  | nil =>
    intro rest fuel hf
    obtain ⟨f, rfl⟩ : ∃ f, fuel = f + 1 := ⟨fuel - 1, by omega⟩
    simp [parseStrChars]
  | cons c cs' ih =>
    intro rest fuel hf
    obtain ⟨f, rfl⟩ : ∃ f, fuel = f + 1 := ⟨fuel - 1, by omega⟩
    have hih := ih rest f (by simp at hf; omega)
    simp only [List.map_cons, List.flatten_cons, List.append_assoc]
    cases h1 : c == '"' with
    | true =>
      rw [show c = '"' from beq_iff_eq.mp h1]
      rw [show escapeChar '"' = ['\\', '"'] from rfl]
      simp [parseStrChars, decodeEscape, hih]
    | false =>
    cases h2 : c == '\\' with
    | true =>
      rw [show c = '\\' from beq_iff_eq.mp h2]
      rw [show escapeChar '\\' = ['\\', '\\'] from rfl]
      simp [parseStrChars, decodeEscape, hih]
    | false =>
    cases h3 : c == '\x08' with
    | true =>
      rw [show c = '\x08' from beq_iff_eq.mp h3]
      rw [show escapeChar '\x08' = ['\\', 'b'] from rfl]
      simp [parseStrChars, decodeEscape, hih]
    | false =>
    cases h4 : c == '\t' with
    | true =>
      rw [show c = '\t' from beq_iff_eq.mp h4]
      rw [show escapeChar '\t' = ['\\', 't'] from rfl]
      simp [parseStrChars, decodeEscape, hih]
    | false =>
    cases h5 : c == '\n' with
    | true =>
      rw [show c = '\n' from beq_iff_eq.mp h5]
      rw [show escapeChar '\n' = ['\\', 'n'] from rfl]
      simp [parseStrChars, decodeEscape, hih]
    | false =>
    cases h6 : c == '\x0c' with
    | true =>
      rw [show c = '\x0c' from beq_iff_eq.mp h6]
      rw [show escapeChar '\x0c' = ['\\', 'f'] from rfl]
      simp [parseStrChars, decodeEscape, hih]
    | false =>
    cases h7 : c == '\r' with
    | true =>
      rw [show c = '\r' from beq_iff_eq.mp h7]
      rw [show escapeChar '\r' = ['\\', 'r'] from rfl]
      simp [parseStrChars, decodeEscape, hih]
    | false =>
    by_cases h8 : c.toNat < 32
    · have hesc : escapeChar c
          = ['\\', 'u', '0', '0', hexDigitChar (c.toNat / 16), hexDigitChar (c.toNat % 16)] := by
        simp only [escapeChar, h1, h2, h3, h4, h5, h6, h7]
        simp [h8]
      have hx1 : hexVal? (hexDigitChar (c.toNat / 16)) = some (c.toNat / 16) :=
        hexVal?_hexDigitChar _ (by omega)
      have hx2 : hexVal? (hexDigitChar (c.toNat % 16)) = some (c.toNat % 16) :=
        hexVal?_hexDigitChar _ (by omega)
      have h4hex : ∀ (X : List Char), parse4Hex
          ('0' :: '0' :: hexDigitChar (c.toNat / 16) :: hexDigitChar (c.toNat % 16) :: X)
          = some (c.toNat, X) := by
        intro X
        simp only [parse4Hex]
        rw [show hexVal? '0' = some 0 from rfl, hx1, hx2]
        show some (((0 * 16 + 0) * 16 + c.toNat / 16) * 16 + c.toNat % 16, X)
          = some (c.toNat, X)
        rw [show ((0 * 16 + 0) * 16 + c.toNat / 16) * 16 + c.toNat % 16 = c.toNat from by omega]
      have hdec : ∀ (X : List Char), decodeEscape
          ('u' :: '0' :: '0' :: hexDigitChar (c.toNat / 16) :: hexDigitChar (c.toNat % 16) :: X)
          = some (c, X) := by
        intro X
        simp only [decodeEscape]
        rw [show (('u' : Char) == '"') = false from rfl, show (('u' : Char) == '\\') = false from rfl,
          show (('u' : Char) == '/') = false from rfl, show (('u' : Char) == 'b') = false from rfl,
          show (('u' : Char) == 'f') = false from rfl, show (('u' : Char) == 'n') = false from rfl,
          show (('u' : Char) == 'r') = false from rfl, show (('u' : Char) == 't') = false from rfl,
          show (('u' : Char) == 'u') = true from rfl]
        simp only [Bool.false_eq_true, if_false, if_true]
        rw [h4hex]
        simp [show ¬(55296 ≤ c.toNat ∧ c.toNat ≤ 56319) from by omega,
          show ¬(56320 ≤ c.toNat ∧ c.toNat ≤ 57343) from by omega,
          Char.ofNat_toNat]
      rw [hesc]
      simp [parseStrChars, hdec, hih]
    · have hesc : escapeChar c = [c] := by
        simp only [escapeChar, h1, h2, h3, h4, h5, h6, h7]
        simp [h8]
      rw [hesc]
      simp [parseStrChars, h1, h2, h8, hih]

lemma parseNum_intDec (n : Int) (tail : List Char) :
    parseNum (intDec n ++ ',' :: tail) = some (n, ',' :: tail) := by
  obtain ⟨hne, hdig, hval, hlead⟩ := natDec_spec n.natAbs
  obtain ⟨tw, dw⟩ := takeWhile_all_front (natDec n.natAbs) ',' tail hdig (by decide)
  have hie : (natDec n.natAbs).isEmpty = false := by
    cases hnd : natDec n.natAbs with
    | nil => exact absurd hnd hne
    | cons a l => rfl
  have hld : ¬(1 < (natDec n.natAbs).length ∧ (natDec n.natAbs).headD '0' = '0') := by
    rcases hlead with h0 | h0
    · rw [h0, show natDec 0 = ['0'] from rfl]
      simp
    · intro hx
      exact h0 hx.2
  rcases lt_or_ge n 0 with hn | hn
  · rw [show intDec n = '-' :: natDec n.natAbs from by simp [intDec, hn]]
    simp only [List.cons_append]
    simp [parseNum, tw, dw, hie, hld,
      show ((',' : Char) == '.') = false from rfl, show ((',' : Char) == 'e') = false from rfl,
      show ((',' : Char) == 'E') = false from rfl]
    refine ⟨fun h1 h2 => hld ⟨h1, by simpa using h2⟩, ?_⟩
    rw [hval]
    omega
  · have hnn : ¬ n < 0 := by omega
    rw [show intDec n = natDec n.natAbs from by simp [intDec, hnn]]
    obtain ⟨e, es, hnd⟩ := List.exists_cons_of_ne_nil hne
    have hde : e.isDigit = true := hdig e (by rw [hnd]; simp)
    rw [hnd]
    rw [hnd] at tw dw hie hld hval
    simp only [List.cons_append] at tw dw ⊢
    simp [parseNum, tw, dw, hie, hld,
      beq_eq_false_of_isDigit '-' hde (by decide),
      show ((',' : Char) == '.') = false from rfl, show ((',' : Char) == 'e') = false from rfl,
      show ((',' : Char) == 'E') = false from rfl]
    refine ⟨fun h1 h2 => hld ⟨by simp; omega, by simp [h2]⟩, ?_⟩
    rw [hval]
    omega

lemma parseVal_esc_str (f : Nat) (w : String) (rest : List Char) :
    parseVal (f + 1) ((escapeString w).toList ++ rest) = some (.str w, rest) := by
  have hb : w.toList.length + 1
      ≤ ((w.toList.map escapeChar).flatten ++ '"' :: rest).length + 1 := by
    have := escFlatten_len w.toList
    simp only [List.length_append, List.length_cons]
    omega
  have hps := parseStrChars_escaped w.toList rest _ hb
  rw [escapeString_toList]
  simp only [List.cons_append, List.append_assoc, List.singleton_append, List.nil_append]
  show (match parseStrChars (((w.toList.map escapeChar).flatten ++ '"' :: rest).length + 1)
      ((w.toList.map escapeChar).flatten ++ '"' :: rest) with
    | some (out, rem) => some (JsonVal.str out.asString, rem)
    | none => none) = some (JsonVal.str w, rest)
  rw [hps]
  show some (JsonVal.str w.toList.asString, rest) = some (JsonVal.str w, rest)
  rw [asString_toList]

lemma parseVal_null_lit (f : Nat) (rest : List Char) :
    parseVal (f + 1) ('n' :: 'u' :: 'l' :: 'l' :: rest) = some (.null, rest) := rfl

lemma parseVal_intDec (f : Nat) (n : Int) (tail : List Char) :
    parseVal (f + 1) (intDec n ++ ',' :: tail) = some (.num n, ',' :: tail) := by
  have hpn := parseNum_intDec n tail
  rcases lt_or_ge n 0 with hn | hn
  · rw [show intDec n = '-' :: natDec n.natAbs from by simp [intDec, hn]] at hpn ⊢
    simp only [List.cons_append] at hpn ⊢
    show (match parseNum ('-' :: (natDec n.natAbs ++ ',' :: tail)) with
      | some (m, rem) => some (JsonVal.num m, rem)
      | none => none) = some (JsonVal.num n, ',' :: tail)
    rw [hpn]
  · have hnn : ¬ n < 0 := by omega
    obtain ⟨hne, hdig, -, -⟩ := natDec_spec n.natAbs
    rw [show intDec n = natDec n.natAbs from by simp [intDec, hnn]] at hpn ⊢
    obtain ⟨e, es, hnd⟩ := List.exists_cons_of_ne_nil hne
    have hde : e.isDigit = true := hdig e (by rw [hnd]; simp)
    rw [hnd] at hpn ⊢
    simp only [List.cons_append] at hpn ⊢
    have hdw : List.dropWhile jsonWsChar (e :: (es ++ ',' :: tail)) = e :: (es ++ ',' :: tail) := by
      rw [List.dropWhile_cons, jsonWsChar_eq_false_of_isDigit hde]
      simp
    simp only [parseVal]
    rw [hdw]
    simp only [beq_eq_false_of_isDigit 'n' hde (by decide),
      beq_eq_false_of_isDigit 't' hde (by decide),
      beq_eq_false_of_isDigit 'f' hde (by decide),
      beq_eq_false_of_isDigit '"' hde (by decide),
      beq_eq_false_of_isDigit '[' hde (by decide),
      beq_eq_false_of_isDigit lbrace hde (by decide),
      hde, Bool.or_true, Bool.false_eq_true, if_false, if_true]
    rw [hpn]

lemma parseMember_key (f : Nat) (key : String) (X rest : List Char) (v : JsonVal)
    (hkey : (key.toList.map escapeChar).flatten = key.toList)
    (hval : parseVal f X = some (v, rest)) :
    parseMember (f + 1) ((escapeString key).toList ++ ':' :: X) = some ((key, v), rest) := by
  have hb : key.toList.length + 1 ≤ (key.toList ++ '"' :: ':' :: X).length + 1 := by
    simp only [List.length_append, List.length_cons]
    omega
  have hps := parseStrChars_escaped key.toList (':' :: X)
    ((key.toList ++ '"' :: ':' :: X).length + 1) hb
  rw [hkey] at hps
  rw [escapeString_toList, hkey]
  simp only [List.cons_append, List.append_assoc, List.singleton_append, List.nil_append]
  show (match parseStrChars ((key.toList ++ '"' :: ':' :: X).length + 1)
      (key.toList ++ '"' :: ':' :: X) with
    | none => none
    | some (k, rem) =>
      match List.dropWhile jsonWsChar rem with
      | ':' :: rem2 =>
        match parseVal f rem2 with
        | none => none
        | some (v2, rem3) => some ((k.asString, v2), rem3)
      | _ => none) = some ((key, v), rest)
  rw [hps]
  show (match parseVal f X with
    | none => none
    | some (v2, rem3) => some ((key.toList.asString, v2), rem3)) = some ((key, v), rest)
  rw [hval]
  show some ((key.toList.asString, v), rest) = some ((key, v), rest)
  rw [asString_toList]

lemma parseObjRest_close (f : Nat) (rest : List Char) :
    parseObjRest (f + 1) (rbrace :: rest) = some ([], rest) := rfl

lemma parseObjRest_cons (f : Nat) (M rest rem2 : List Char) (m : String × JsonVal)
    (ms : List (String × JsonVal))
    (hm : parseMember f M = some (m, rest))
    (hms : parseObjRest f rest = some (ms, rem2)) :
    parseObjRest (f + 1) (',' :: M) = some (m :: ms, rem2) := by
  show (match parseMember f M with
    | none => none
    | some (m2, rem) =>
      match parseObjRest f rem with
      | none => none
      | some (ms2, rem3) => some (m2 :: ms2, rem3)) = some (m :: ms, rem2)
  rw [hm]
  show (match parseObjRest f rest with
    | none => none
    | some (ms2, rem3) => some (m :: ms2, rem3)) = some (m :: ms, rem2)
  rw [hms]

lemma parseObjTail_start (f : Nat) (cs2 rem1 rem2 : List Char) (m : String × JsonVal)
    (ms : List (String × JsonVal))
    (hm : parseMember f ('"' :: cs2) = some (m, rem1))
    (hms : parseObjRest f rem1 = some (ms, rem2)) :
    parseObjTail (f + 1) ('"' :: cs2) = some (.obj (m :: ms), rem2) := by
  show (match parseMember f ('"' :: cs2) with
    | none => none
    | some (m2, rem) =>
      match parseObjRest f rem with
      | none => none
      | some (ms2, rem3) => some (JsonVal.obj (m2 :: ms2), rem3)) = some (.obj (m :: ms), rem2)
  rw [hm]
  show (match parseObjRest f rem1 with
    | none => none
    | some (ms2, rem3) => some (JsonVal.obj (m :: ms2), rem3)) = some (.obj (m :: ms), rem2)
  rw [hms]

lemma parseVal_obj_open (f : Nat) (T : List Char) (v : JsonVal) (rem : List Char)
    (h : parseObjTail f T = some (v, rem)) :
    parseVal (f + 1) (lbrace :: T) = some (v, rem) := by
  show parseObjTail f T = some (v, rem)
  exact h

lemma parseObjTail_firstkey (f : Nat) (key : String) (X rem1 rem2 : List Char)
    (m : String × JsonVal) (ms : List (String × JsonVal))
    (hm : parseMember f ((escapeString key).toList ++ ':' :: X) = some (m, rem1))
    (hms : parseObjRest f rem1 = some (ms, rem2)) :
    parseObjTail (f + 1) ((escapeString key).toList ++ ':' :: X)
      = some (.obj (m :: ms), rem2) := by
  rw [escapeString_toList] at hm ⊢
  simp only [List.cons_append, List.append_assoc, List.singleton_append, List.nil_append] at hm ⊢
  exact parseObjTail_start f _ rem1 rem2 m ms hm hms

lemma parseVal_printed_obj (f : Nat) (vid : JsonVal) (V : List Char) (t c s : String)
    (hv : ∀ (g : Nat) (X2 : List Char), parseVal (g + 1) (V ++ ',' :: X2) = some (vid, ',' :: X2)) :
    parseVal (f + 7)
      (lbrace :: ((escapeString "id").toList ++ ':' :: (V ++ ','
        :: ((escapeString "title").toList ++ ':' :: ((escapeString t).toList ++ ','
        :: ((escapeString "content").toList ++ ':' :: ((escapeString c).toList ++ ','
        :: ((escapeString "source").toList ++ ':' :: ((escapeString s).toList ++ [rbrace])))))))))
      = some (.obj [("id", vid), ("title", .str t), ("content", .str c), ("source", .str s)],
              []) := by
  have hkey_id : ((("id" : String)).toList.map escapeChar).flatten = ("id" : String).toList := by
    decide
  have hkey_t : ((("title" : String)).toList.map escapeChar).flatten
      = ("title" : String).toList := by decide
  have hkey_c : ((("content" : String)).toList.map escapeChar).flatten
      = ("content" : String).toList := by decide
  have hkey_s : ((("source" : String)).toList.map escapeChar).flatten
      = ("source" : String).toList := by decide
  have hsv := parseVal_esc_str f s [rbrace]
  have hsm := parseMember_key (f + 1) "source" ((escapeString s).toList ++ [rbrace]) [rbrace]
    (.str s) hkey_s hsv
  have hclose := parseObjRest_close (f + 1) ([] : List Char)
  have hR3 := parseObjRest_cons (f + 2) _ [rbrace] [] ("source", .str s) [] hsm hclose
  have hcv := parseVal_esc_str (f + 1) c
    (',' :: ((escapeString "source").toList ++ ':' :: ((escapeString s).toList ++ [rbrace])))
  have hcm := parseMember_key (f + 2) "content" _ _ (.str c) hkey_c hcv
  have hR4 := parseObjRest_cons (f + 3) _ _ [] ("content", .str c) [("source", .str s)] hcm hR3
  have htv := parseVal_esc_str (f + 2) t
    (',' :: ((escapeString "content").toList ++ ':' :: ((escapeString c).toList ++ ','
      :: ((escapeString "source").toList ++ ':' :: ((escapeString s).toList ++ [rbrace])))))
  have htm := parseMember_key (f + 3) "title" _ _ (.str t) hkey_t htv
  have hR5 := parseObjRest_cons (f + 4) _ _ [] ("title", .str t)
    [("content", .str c), ("source", .str s)] htm hR4
  have hiv := hv (f + 3)
    ((escapeString "title").toList ++ ':' :: ((escapeString t).toList ++ ','
      :: ((escapeString "content").toList ++ ':' :: ((escapeString c).toList ++ ','
      :: ((escapeString "source").toList ++ ':' :: ((escapeString s).toList ++ [rbrace]))))))
  have him := parseMember_key (f + 4) "id" _ _ vid hkey_id hiv
  have hOT := parseObjTail_firstkey (f + 5) "id" _ _ [] ("id", vid)
    [("title", .str t), ("content", .str c), ("source", .str s)] him hR5
  exact parseVal_obj_open (f + 6) _ _ [] hOT

lemma parseVal_printed_article (f : Nat) (a : Article) :
    parseVal (f + 7) (printJson (encodeArticle a)).toList = some (encodeArticle a, [])
    ∧ 3 ≤ (printJson (encodeArticle a)).toList.length := by
  obtain ⟨oid, t, c, s⟩ := a
  cases oid with
  | none =>
    have hstr : printJson (encodeArticle ⟨none, t, c, s⟩)
        = "\x7b" ++ (escapeString "id" ++ ":" ++ "null" ++ ","
          ++ (escapeString "title" ++ ":" ++ escapeString t ++ ","
          ++ (escapeString "content" ++ ":" ++ escapeString c ++ ","
          ++ (escapeString "source" ++ ":" ++ escapeString s)))) ++ "\x7d" := by
      simp [printJson, printObjMembers, encodeArticle]
    have hdec : (printJson (encodeArticle ⟨none, t, c, s⟩)).toList
        = lbrace :: ((escapeString "id").toList ++ ':' :: (['n', 'u', 'l', 'l'] ++ ','
          :: ((escapeString "title").toList ++ ':' :: ((escapeString t).toList ++ ','
          :: ((escapeString "content").toList ++ ':' :: ((escapeString c).toList ++ ','
          :: ((escapeString "source").toList ++ ':'
            :: ((escapeString s).toList ++ [rbrace])))))))) := by
      rw [hstr]
      simp only [toList_append, List.cons_append, List.append_assoc, List.singleton_append,
        List.nil_append, show ("\x7b" : String).toList = [lbrace] from by decide,
        show ("\x7d" : String).toList = [rbrace] from by decide,
        show (":" : String).toList = [':'] from rfl,
        show ("," : String).toList = [','] from rfl,
        show ("null" : String).toList = ['n', 'u', 'l', 'l'] from rfl]
    rw [hdec]
    refine ⟨?_, ?_⟩
    · exact parseVal_printed_obj f JsonVal.null ['n', 'u', 'l', 'l'] t c s
        (fun g X2 => by
          simp only [List.cons_append, List.nil_append]
          exact parseVal_null_lit g (',' :: X2))
    · simp only [List.length_cons, List.length_append, escapeString_toList]
      omega
  | some n =>
    have hstr : printJson (encodeArticle ⟨some n, t, c, s⟩)
        = "\x7b" ++ (escapeString "id" ++ ":" ++ (intDec n).asString ++ ","
          ++ (escapeString "title" ++ ":" ++ escapeString t ++ ","
          ++ (escapeString "content" ++ ":" ++ escapeString c ++ ","
          ++ (escapeString "source" ++ ":" ++ escapeString s)))) ++ "\x7d" := by
      simp [printJson, printObjMembers, encodeArticle]
    have hdec : (printJson (encodeArticle ⟨some n, t, c, s⟩)).toList
        = lbrace :: ((escapeString "id").toList ++ ':' :: (intDec n ++ ','
          :: ((escapeString "title").toList ++ ':' :: ((escapeString t).toList ++ ','
          :: ((escapeString "content").toList ++ ':' :: ((escapeString c).toList ++ ','
          :: ((escapeString "source").toList ++ ':'
            :: ((escapeString s).toList ++ [rbrace])))))))) := by
      rw [hstr]
      simp only [toList_append, List.cons_append, List.append_assoc, List.singleton_append,
        List.nil_append, toList_asString, show ("\x7b" : String).toList = [lbrace] from by decide,
        show ("\x7d" : String).toList = [rbrace] from by decide,
        show (":" : String).toList = [':'] from rfl,
        show ("," : String).toList = [','] from rfl]
    rw [hdec]
    refine ⟨?_, ?_⟩
    · exact parseVal_printed_obj f (JsonVal.num n) (intDec n) t c s
        (fun g X2 => parseVal_intDec g n X2)
    · simp only [List.length_cons, List.length_append, escapeString_toList]
      omega

/-- C9: JSON-encoding an article record as text (as `serde_json::to_string`
of the derived `Serialize` does) and then decoding that text (as
`serde_json::from_str` of the derived `Deserialize` does) yields a
field-for-field identical record, with the id preserved when present (the
id, being an `i32` in the source, always satisfies the range hypothesis). -/
theorem c9_article_roundtrip (a : Article)
    (h : ∀ n, a.id = some n → -2147483648 ≤ n ∧ n ≤ 2147483647) :
    (parseJson (printJson (encodeArticle a))).bind decodeArticle = some a := by
  obtain ⟨hparse, hlen⟩ := parseVal_printed_article
    (2 * (printJson (encodeArticle a)).toList.length + 2 - 7) a
  rw [show 2 * (printJson (encodeArticle a)).toList.length + 2 - 7 + 7
      = 2 * (printJson (encodeArticle a)).toList.length + 2 from by omega] at hparse
  rw [show parseJson (printJson (encodeArticle a)) = some (encodeArticle a) from by
    simp only [parseJson]
    rw [hparse]
    simp]
  simp only [Option.some_bind]
  exact decodeArticle_encodeArticle a h

/-- Witness for C9 at a concrete record with an id: text-encode, text-parse,
decode. -/
theorem c9_witness :
    (∀ n : Int, (some 42 : Option Int) = some n → -2147483648 ≤ n ∧ n ≤ 2147483647)
    ∧ (parseJson (printJson (encodeArticle ⟨some 42, "Movie", "1. Movie", "imdb"⟩))).bind
        decodeArticle = some ⟨some 42, "Movie", "1. Movie", "imdb"⟩ :=
  ⟨fun n hn => by injection hn with h2; rw [← h2]; exact ⟨by decide, by decide⟩,
   c9_article_roundtrip ⟨some 42, "Movie", "1. Movie", "imdb"⟩
     (fun n hn => by injection hn with h2; rw [← h2]; exact ⟨by decide, by decide⟩)⟩
